import Mathlib

/- A verification development for lldpy, a Python wrapper around the lldpctl
client library of lldpd. The definitions below are a shallow embedding of
src/lldpy.py: backend handles become a finite tree type, decoded Atom records
become association lists of attributes, and the generator-based walk and the
connect context manager become explicit operation traces. -/

namespace Lldpy

/-- An opaque lldpctl atom handle (an lldpctl_atom_t pointer), FFI.NULL
included. A non-null handle carries: the per-key string values served by
lldpctl_atom_get_str, the per-key sub-handles served by lldpctl_atom_get, the
element handles a list handle yields to an Atom.walk, and the port atom served
by lldpctl_get_port. -/
inductive Ptr : Type where
  | null : Ptr
  | node (strs : List (String × String)) (subs : List (String × Ptr))
      (elems : List Ptr) (port : Ptr) : Ptr

/-- lldpctl_atom_get_str(ptr, keynum): the backend string value for a key,
NULL modelled as none. Keys are identified by their enum constant name; the
source pairs each name with its numeric value via getattr(LIB, k), a
bijection, so lookups are modelled by name. -/
def lldpctl_atom_get_str (p : Ptr) (k : String) : Option String :=
  match p with
  | Ptr.null => none
  | Ptr.node strs _ _ _ => strs.lookup k

/-- lldpctl_atom_get(ptr, keynum): the backend sub-handle for a key, NULL when
the backend has none. -/
def lldpctl_atom_get (p : Ptr) (k : String) : Ptr :=
  match p with
  | Ptr.null => Ptr.null
  | Ptr.node _ subs _ _ => (subs.lookup k).getD Ptr.null

/-- The element handles contained in an atom list handle: a completed
Atom.walk over the handle yields exactly these, in order. -/
def atom_elems (p : Ptr) : List Ptr :=
  match p with
  | Ptr.null => []
  | Ptr.node _ _ elems _ => elems

/-- lldpctl_get_port(ptr): the port atom of an interface handle. -/
def lldpctl_get_port (p : Ptr) : Ptr :=
  match p with
  | Ptr.null => Ptr.null
  | Ptr.node _ _ _ port => port

/-- A value stored in a decoded record field: the text a _decode_as_string
produced, the record list a _decode_as_atom produced, or a single nested
record object (the Interface.port attribute). -/
inductive UVal : Type where
  | str : String → UVal
  | lst : List (List (String × UVal)) → UVal
  | obj : List (String × UVal) → UVal

/-- A decoded record: the attribute dictionary an Atom instance accumulates
through setattr, as (name, value) pairs in assignment order; a later pair for
a name overrides an earlier one, as setattr would. -/
abbrev Record : Type := List (String × UVal)

/-- getattr(record, a) without a default: the latest binding of the attribute,
if any. -/
def getAttr (r : Record) (a : String) : Option UVal :=
  r.reverse.lookup a

/-- The characters of the key name prelude that Atom.__init__ strips from
attribute names, the string bound to Atom.prefix in the source. -/
def keyPfxChars : List Char := "lldpctl_k_".toList

/-- keyname.replace(Atom.prefix, ''): remove every occurrence of the key name
prelude, scanning left to right. Fuel is the length of the input, enough since
every step consumes at least one character; structural recursion on the fuel
keeps the definition kernel-reducible. -/
def stripKeyAux : Nat → List Char → List Char
  | 0, l => l
  | _ + 1, [] => []
  | fuel + 1, c :: cs =>
    if (c :: cs).take keyPfxChars.length = keyPfxChars then
      stripKeyAux fuel ((c :: cs).drop keyPfxChars.length)
    else
      c :: stripKeyAux fuel cs

/-- The attribute name a key decodes to: keyname.replace('lldpctl_k_', ''). -/
def stripKey (k : String) : String :=
  String.mk (stripKeyAux k.data.length k.data)

/-- Atom._decode_as_string: fetch the string representation with
lldpctl_atom_get_str; None when the backend returns NULL. -/
def _decode_as_string (k : String) (p : Ptr) : Option UVal :=
  (lldpctl_atom_get_str p k).map UVal.str

/-- Atom._decode_as_atom: fetch the list handle with lldpctl_atom_get and
decode every walked element with the sub-record class decoder dec; a NULL
handle gives the empty list. The result is never None, so the field is always
assigned. -/
def _decode_as_atom (dec : Ptr → Record) (k : String) (p : Ptr) : Option UVal :=
  match lldpctl_atom_get p k with
  | Ptr.null => some (UVal.lst [])
  | raw => some (UVal.lst ((atom_elems raw).map dec))

/-- One pass of the Atom.__init__ key loop for one key: a key present in the
class key_to_type mapping decodes as an atom list, any other key decodes as a
string. -/
def decodeOne (subs : List (String × (Ptr → Record))) (p : Ptr) (k : String) :
    Option UVal :=
  match subs.lookup k with
  | some dec => _decode_as_atom dec k p
  | none => _decode_as_string k p

/-- Atom.__init__, parameterised over the class key_to_type mapping (subs,
pairing each mapped key with the decoder of its record class) and over the
process-wide introspected key table: for every key, decode it, and setattr the
value under the stripped key name exactly when the value is not None. -/
def Atom_init_with (subs : List (String × (Ptr → Record))) (keys : List String)
    (p : Ptr) : Record :=
  keys.filterMap (fun k => (decodeOne subs p k).map (fun v => (stripKey k, v)))

/-- The Atom class: key_to_type is empty, every key decodes as a string. -/
def Atom_init (keys : List String) (p : Ptr) : Record :=
  Atom_init_with [] keys p

/-- The Port class: key_to_type maps lldpctl_k_chassis_mgmt to Atom. -/
def Port_init (keys : List String) (p : Ptr) : Record :=
  Atom_init_with [("lldpctl_k_chassis_mgmt", Atom_init keys)] keys p

/-- The Ports class: key_to_type maps lldpctl_k_port_neighbors to Port. -/
def Ports_init (keys : List String) (p : Ptr) : Record :=
  Atom_init_with [("lldpctl_k_port_neighbors", Port_init keys)] keys p

/-- Interface.__init__: the inherited Atom field loop (Interface inherits the
empty Atom.key_to_type), then self.port = Ports(lldpctl_get_port(ptr)), bound
last so it wins any name clash, exactly as the final setattr would. -/
def Interface_init (keys : List String) (p : Ptr) : Record :=
  Atom_init_with [] keys p ++
    [("port", UVal.obj (Ports_init keys (lldpctl_get_port p)))]

/-- Atom._enabled: value = int(getattr(self, 'chassis_cap_enabled', 0));
return bool(value & flag). The argument is the parsed integer value of the
chassis_cap_enabled field, none when the attribute is absent, in which case
the getattr default 0 applies. -/
def _enabled (cap : Option Nat) (flag : Nat) : Bool :=
  let value := cap.getD 0
  value &&& flag != 0

/-- The parsed integer value of a record's chassis_cap_enabled attribute:
int() of the stored text, none when the attribute is absent. -/
def atom_cap_enabled (r : Record) : Option Nat :=
  match getAttr r "chassis_cap_enabled" with
  | some (UVal.str s) => s.toNat?
  | _ => none

/-- The repeater_enabled property: self._enabled(0x02). -/
def repeater_enabled (cap : Option Nat) : Bool := _enabled cap 0x02

/-- The bridge_enabled property: self._enabled(0x04). -/
def bridge_enabled (cap : Option Nat) : Bool := _enabled cap 0x04

/-- The wlan_enabled property: self._enabled(0x08). -/
def wlan_enabled (cap : Option Nat) : Bool := _enabled cap 0x08

/-- The router_enabled property: self._enabled(0x10). -/
def router_enabled (cap : Option Nat) : Bool := _enabled cap 0x10

/-- One backend reference-count operation performed by Atom.walk: read is
lldpctl_atom_iter_value, which hands back an acquired reference to the
element, and decref is lldpctl_atom_dec_ref on a previously read element. -/
inductive WalkOp : Type where
  | read (v : Ptr) : WalkOp
  | decref (v : Ptr) : WalkOp

/-- The operation trace of the Atom.walk generator over the element handles of
a list handle, when the consumer resumes the generator the given number of
times. Each resumption runs the generator to its next yield (read the current
element, yield it) or to completion. The lldpctl_atom_dec_ref of the element
yielded last sits after the yield statement, so it only runs on the following
resumption; a consumer that abandons the generator after a yield never
executes that trailing decref, because closing a generator raises GeneratorExit
at the yield point and the plain statements after the yield do not run. -/
def walkOps : List Ptr → Nat → List WalkOp
  | _, 0 => []
  | [], _ + 1 => []
  | v :: _, 1 => [WalkOp.read v]
  | v :: rest, n + 2 => WalkOp.read v :: WalkOp.decref v :: walkOps rest (n + 1)

/-- Number of element reads (reference acquisitions) in a walk trace. -/
def readCount (ops : List WalkOp) : Nat :=
  (ops.filter fun o => match o with | WalkOp.read _ => true | _ => false).length

/-- Number of lldpctl_atom_dec_ref calls in a walk trace. -/
def decrefCount (ops : List WalkOp) : Nat :=
  (ops.filter fun o => match o with | WalkOp.decref _ => true | _ => false).length

/-- One change notification delivered to the registered watch callback: the
lldpctl_change_t tag and the local and remote atom handles. -/
structure ChangeEvent : Type where
  cbtype : Nat
  localPtr : Ptr
  remotePtr : Ptr

/-- lldpctl_change_t, first member: a neighbor was deleted. -/
def lldpctl_c_deleted : Nat := 0

/-- lldpctl_change_t, second member: a neighbor was updated. -/
def lldpctl_c_updated : Nat := 1

/-- lldpctl_change_t, third member: a neighbor was added. -/
def lldpctl_c_added : Nat := 2

/-- A connection to lldpd, as the backend behaves over it during one connect
cycle: the interface list handle lldpctl_get_interfaces returns, and the
change notifications the backend delivers to the registered callback while
the thread blocks inside lldpctl_watch, in delivery order. -/
structure Conn : Type where
  interfaces : Ptr
  pending : List ChangeEvent

/-- lldpctl_get_interfaces(conn). -/
def lldpctl_get_interfaces (c : Conn) : Ptr := c.interfaces

/-- Interface.iterator: fetch the interface list handle; on a NULL handle the
body raises StopIteration, which inside a generator (in the Python 2 line this
module targets, predating PEP 479) simply terminates the iteration, so the
caller sees an empty sequence; otherwise each walked element handle is decoded
as an Interface. -/
def Interface_iterator (keys : List String) (conn : Conn) : List Record :=
  match lldpctl_get_interfaces conn with
  | Ptr.null => []
  | intfs => (atom_elems intfs).map (Interface_init keys)

/-- One override invocation observed by the embedding application. -/
inductive Call : Type where
  | on_add (l r : Record) : Call
  | on_delete (l r : Record) : Call
  | on_update (l r : Record) : Call

/-- Watcher.process: decode args = Atom(local), Port(remote), then dispatch on
cbtype. The returned list is the sequence of override invocations the callback
performs: exactly one for a recognised change tag, none for an unrecognised
tag, in which case the callback just returns after decoding. -/
def process (keys : List String) (e : ChangeEvent) : List Call :=
  let args := (Atom_init keys e.localPtr, Port_init keys e.remotePtr)
  if e.cbtype = lldpctl_c_added then [Call.on_add args.1 args.2]
  else if e.cbtype = lldpctl_c_deleted then [Call.on_delete args.1 args.2]
  else if e.cbtype = lldpctl_c_updated then [Call.on_update args.1 args.2]
  else []

/-- The neighbor records interface.port.port_neighbors evaluates to; an
attribute lookup that fails raises, modelled as Except.error of the Python
exception name. -/
def interface_neighbors (itf : Record) : Except String (List Record) :=
  match getAttr itf "port" with
  | some (UVal.obj ports) =>
    match getAttr ports "port_neighbors" with
    | some (UVal.lst ns) => Except.ok ns
    | some _ => Except.error "TypeError"
    | none => Except.error "AttributeError"
  | some _ => Except.error "TypeError"
  | none => Except.error "AttributeError"

/-- The on_add calls one interface contributes during Watcher.load, one per
neighbor, in list order. -/
def interface_calls (itf : Record) : Except String (List Call) :=
  (interface_neighbors itf).map (fun ns => ns.map (fun p => Call.on_add itf p))

/-- The nested loop of Watcher.load over the decoded interfaces. -/
def load_go : List Record → Except String (List Call)
  | [] => Except.ok []
  | itf :: rest => do
    let calls ← interface_calls itf
    let more ← load_go rest
    pure (calls ++ more)

/-- Watcher.load: for interface in Interface.iterator(conn), for port in
interface.port.port_neighbors, self.on_add(interface, port). The result is the
sequence of synthetic on_add calls, or the exception a failed attribute access
raises. -/
def load (keys : List String) (conn : Conn) : Except String (List Call) :=
  load_go (Interface_iterator keys conn)

/-- Watcher.loop: the override invocations performed while blocking inside
lldpctl_watch, which synchronously delivers the pending change notifications,
in order, to the process callback registered on the connection. -/
def loop_calls (keys : List String) (conn : Conn) : List Call :=
  conn.pending.flatMap (process keys)

/-- The body of one Watcher.run cycle after connect: self.load(conn) then
self.loop(conn); the trace of override invocations, the load calls first. -/
def run_cycle (keys : List String) (conn : Conn) : Except String (List Call) := do
  let lc ← load keys conn
  pure (lc ++ loop_calls keys conn)

/-- One backend call performed by the Watcher.connect context manager. -/
inductive ConnectOp : Type where
  | new : ConnectOp
  | registerWatch : ConnectOp
  | release : ConnectOp

/-- How the with-block body that runs inside Watcher.connect finished: a
normal return, or an exception raised inside the scope. -/
inductive BodyOutcome : Type where
  | ok : BodyOutcome
  | exn : BodyOutcome

/-- Watcher.connect, a contextlib contextmanager: lldpctl_new, then
lldpctl_watch_callback, then yield conn, then lldpctl_release(conn). When the
with-body raises, contextlib throws the exception into the generator at the
yield; the yield has no try/finally around it, so the release line never runs
on that path and the exception propagates. -/
def connect_scope (body : BodyOutcome) : List ConnectOp :=
  [ConnectOp.new, ConnectOp.registerWatch] ++
    match body with
    | BodyOutcome.ok => [ConnectOp.release]
    | BodyOutcome.exn => []

/-- Number of lldpctl_release calls in a connect trace. -/
def releaseCount (ops : List ConnectOp) : Nat :=
  (ops.filter fun o => match o with | ConnectOp.release => true | _ => false).length

/-- The entry half of Watcher.connect, given the connection handle that
lldpctl_new returned: the backend calls made before the yield, and the yielded
result. The source performs no NULL check (its XXX error handling comment
marks the gap): it registers the watch callback on conn and yields it
unconditionally, raising nothing, so the result is Except.ok even for a NULL
handle. -/
def connect_enter (conn : Ptr) : List ConnectOp × Except String Ptr :=
  ([ConnectOp.new, ConnectOp.registerWatch], Except.ok conn)

/-- Concrete key table for witnesses: just the neighbor list key. -/
def demoKeys : List String := ["lldpctl_k_port_neighbors"]

/-- Concrete neighbor handle for witnesses: no fields at all. -/
def demoNeighbor : Ptr := Ptr.node [] [] [] Ptr.null

/-- Concrete neighbor list handle holding one neighbor. -/
def demoNeighList : Ptr := Ptr.node [] [] [demoNeighbor] Ptr.null

/-- Concrete port atom whose lldpctl_k_port_neighbors list has one element. -/
def demoPorts : Ptr := Ptr.node [] [("lldpctl_k_port_neighbors", demoNeighList)] [] Ptr.null

/-- Concrete interface handle whose port atom is demoPorts. -/
def demoItf : Ptr := Ptr.node [] [] [] demoPorts

/-- Concrete connection for witnesses: two interfaces with one neighbor each
at connect time, and one change notification delivered during the watch. -/
def demoConn : Conn :=
  { interfaces := Ptr.node [] [] [demoItf, demoItf] Ptr.null,
    pending := [{ cbtype := lldpctl_c_added, localPtr := Ptr.null, remotePtr := Ptr.null }] }

/-- Helper: the length of a filterMap is the number of inputs decoded to some. -/
theorem length_filterMap_eq {α β : Type} (f : α → Option β) (l : List α) :
    (l.filterMap f).length = (l.filter fun a => (f a).isSome).length := by
  induction l with
  | nil => rfl
  | cons a t ih =>
    cases h : f a <;> simp [List.filterMap_cons, List.filter_cons, h, ih]

/-- Helper: a read at the head of a walk trace bumps the read count. -/
theorem readCount_cons_read (v : Ptr) (t : List WalkOp) :
    readCount (WalkOp.read v :: t) = readCount t + 1 := by
  simp [readCount, List.filter_cons]

/-- Helper: a decref at the head of a walk trace leaves the read count. -/
theorem readCount_cons_decref (v : Ptr) (t : List WalkOp) :
    readCount (WalkOp.decref v :: t) = readCount t := by
  simp [readCount, List.filter_cons]

/-- Helper: a read at the head of a walk trace leaves the decref count. -/
theorem decrefCount_cons_read (v : Ptr) (t : List WalkOp) :
    decrefCount (WalkOp.read v :: t) = decrefCount t := by
  simp [decrefCount, List.filter_cons]

/-- Helper: a decref at the head of a walk trace bumps the decref count. -/
theorem decrefCount_cons_decref (v : Ptr) (t : List WalkOp) :
    decrefCount (WalkOp.decref v :: t) = decrefCount t + 1 := by
  simp [decrefCount, List.filter_cons]

/-- Helper: a consumer that drains the generator (its for loop resumes it
once per element plus once more to observe the end) sees the fully
interleaved read-then-decref trace. -/
theorem walkOps_full (elems : List Ptr) :
    walkOps elems (elems.length + 1) =
      elems.flatMap fun v => [WalkOp.read v, WalkOp.decref v] := by
  induction elems with
  | nil => rfl
  | cons v rest ih =>
    show walkOps (v :: rest) (rest.length + 2) = _
    rw [List.flatMap_cons, walkOps, ih]
    rfl

/-- Helper: read count of the fully interleaved trace. -/
theorem readCount_full (elems : List Ptr) :
    readCount (elems.flatMap fun v => [WalkOp.read v, WalkOp.decref v]) =
      elems.length := by
  induction elems with
  | nil => rfl
  | cons v rest ih =>
    rw [List.flatMap_cons]
    show readCount (WalkOp.read v :: WalkOp.decref v :: _) = _
    rw [readCount_cons_read, readCount_cons_decref]
    show readCount (rest.flatMap fun v => [WalkOp.read v, WalkOp.decref v]) + 1 =
      rest.length + 1
    rw [ih]

/-- Helper: decref count of the fully interleaved trace. -/
theorem decrefCount_full (elems : List Ptr) :
    decrefCount (elems.flatMap fun v => [WalkOp.read v, WalkOp.decref v]) =
      elems.length := by
  induction elems with
  | nil => rfl
  | cons v rest ih =>
    rw [List.flatMap_cons]
    show decrefCount (WalkOp.read v :: WalkOp.decref v :: _) = _
    rw [decrefCount_cons_read, decrefCount_cons_decref]
    show decrefCount (rest.flatMap fun v => [WalkOp.read v, WalkOp.decref v]) + 1 =
      rest.length + 1
    rw [ih]

/-- Helper: a consumer that stops after k yields has triggered k reads but
only k - 1 decrefs: the decref of the element yielded last never runs. -/
theorem walkOps_early (elems : List Ptr) :
    ∀ k, 1 ≤ k → k ≤ elems.length →
      readCount (walkOps elems k) = k ∧ decrefCount (walkOps elems k) = k - 1 := by
  induction elems with
  | nil =>
    intro k h1 h2
    simp only [List.length_nil] at h2
    omega
  | cons v rest ih =>
    intro k h1 h2
    obtain _ | k := k
    · omega
    obtain _ | m := k
    · constructor
      · simp [walkOps, readCount, List.filter]
      · simp [walkOps, decrefCount, List.filter]
    · have hm2 : m + 1 ≤ rest.length := by
        simp only [List.length_cons] at h2
        omega
      obtain ⟨hr, hd⟩ := ih (m + 1) (by omega) hm2
      show readCount (walkOps (v :: rest) (m + 2)) = m + 2 ∧
        decrefCount (walkOps (v :: rest) (m + 2)) = m + 2 - 1
      rw [walkOps]
      constructor
      · rw [readCount_cons_read, readCount_cons_decref, hr]
      · rw [decrefCount_cons_read, decrefCount_cons_decref, hd]
        omega

/-- C1 (counterexample): the claim predicts, for chassis_cap_enabled = 0x06,
repeater_enabled = False and router_enabled = True; the code computes
0x06 AND 0x02 = 0x02, so repeater_enabled is True, and
0x06 AND 0x10 = 0, so router_enabled is False. -/
theorem cap_flags_hex06_claim_false :
    ¬ (repeater_enabled (some 0x06) = false ∧ bridge_enabled (some 0x06) = true ∧
       wlan_enabled (some 0x06) = false ∧ router_enabled (some 0x06) = true) := by
  decide

/-- C1 (corrected): on a record whose chassis_cap_enabled attribute is absent
all four capability flags are false, and for the value 0x06 the flags are
repeater_enabled = True, bridge_enabled = True, wlan_enabled = False,
router_enabled = False: the flags are bit tests of 0x02, 0x04, 0x08, 0x10
respectively and 0x06 has exactly the 0x02 and 0x04 bits set. -/
theorem cap_flags_spec (r : Record)
    (h : getAttr r "chassis_cap_enabled" = none) :
    (repeater_enabled (atom_cap_enabled r) = false ∧
     bridge_enabled (atom_cap_enabled r) = false ∧
     wlan_enabled (atom_cap_enabled r) = false ∧
     router_enabled (atom_cap_enabled r) = false) ∧
    (repeater_enabled (some 0x06) = true ∧ bridge_enabled (some 0x06) = true ∧
     wlan_enabled (some 0x06) = false ∧ router_enabled (some 0x06) = false) := by
  have hc : atom_cap_enabled r = none := by
    rw [atom_cap_enabled, h]
  rw [hc]
  exact ⟨by decide, by decide⟩

/-- C1 witness: the empty record has no chassis_cap_enabled attribute and its
repeater_enabled flag evaluates to false. -/
theorem cap_flags_spec_witness :
    repeater_enabled (atom_cap_enabled []) = false :=
  (cap_flags_spec [] rfl).1.1

/-- C2 (confirmed): when the backend returns a NULL interface list handle,
Interface.iterator produces the empty sequence: the StopIteration raised on
the NULL check terminates the generator rather than propagating to the call
site as a failure. -/
theorem null_interfaces_empty (keys : List String) (conn : Conn)
    (h : conn.interfaces = Ptr.null) :
    Interface_iterator keys conn = [] := by
  rw [Interface_iterator, lldpctl_get_interfaces, h]

/-- C2 witness: a concrete connection whose interface list handle is NULL
enumerates no interfaces. -/
theorem null_interfaces_empty_witness :
    Interface_iterator [] { interfaces := Ptr.null, pending := [] } = [] :=
  null_interfaces_empty [] { interfaces := Ptr.null, pending := [] } rfl

/-- C3 (counterexample): when the with-block body raises, the connect scope
performs zero lldpctl_release calls, not the one the claim requires on every
exit path. -/
theorem connect_release_claim_false :
    releaseCount (connect_scope BodyOutcome.exn) ≠ 1 := by
  decide

/-- C3 (corrected): the connect scope releases the connection exactly once on
a normal exit, but zero times when an exception is raised inside the scope:
the contextmanager generator has no try/finally around its yield, so the
release line after the yield is skipped on the exception path. -/
theorem connect_release_paths :
    releaseCount (connect_scope BodyOutcome.ok) = 1 ∧
    releaseCount (connect_scope BodyOutcome.exn) = 0 := by
  decide

/-- C5 (code bug, behavior at the failing input): when lldpctl_new returns a
NULL connection, Watcher.connect still registers the watch callback on the
NULL handle and yields it as a success, raising no ConnectionError: the source
performs no check at its XXX error handling comment. -/
theorem connect_null_unchecked :
    connect_enter Ptr.null =
      ([ConnectOp.new, ConnectOp.registerWatch], Except.ok Ptr.null) :=
  rfl

/-- Helper: binding an ok result in the Except monad applies the
continuation. -/
theorem bind_ok_eq {α β : Type} (a : α) (f : α → Except String β) :
    (Except.ok a : Except String α) >>= f = f a :=
  rfl

/-- C4 (counterexample): a one-element list whose consumer takes the single
yielded handle and then stops iterating performs one read (reference
acquisition) but zero releases, not the one release the claim requires
regardless of early stop. -/
theorem walk_early_stop_claim_false :
    readCount (walkOps [Ptr.node [] [] [] Ptr.null] 1) = 1 ∧
    decrefCount (walkOps [Ptr.node [] [] [] Ptr.null] 1) ≠ 1 := by
  decide

/-- C4 (corrected): over a list of N element handles, a consumer that drains
the generator triggers exactly N reads and N releases, the trace interleaving
read then decref per element, each yielded handle released exactly once after
it is yielded regardless of whether the consumer used the value; but a
consumer that stops after k yields, 1 ≤ k ≤ N, triggers k reads and only
k - 1 releases: the handle yielded last is never released. -/
theorem walk_accounting (elems : List Ptr) :
    walkOps elems (elems.length + 1) =
      (elems.flatMap fun v => [WalkOp.read v, WalkOp.decref v]) ∧
    readCount (walkOps elems (elems.length + 1)) = elems.length ∧
    decrefCount (walkOps elems (elems.length + 1)) = elems.length ∧
    (∀ k, 1 ≤ k → k ≤ elems.length →
      readCount (walkOps elems k) = k ∧ decrefCount (walkOps elems k) = k - 1) := by
  refine ⟨walkOps_full elems, ?_, ?_, walkOps_early elems⟩
  · rw [walkOps_full, readCount_full]
  · rw [walkOps_full, decrefCount_full]

/-- C4 witness: on a concrete two-element list, stopping after the first
yield gives one read and zero releases. -/
theorem walk_accounting_witness :
    readCount (walkOps [Ptr.null, Ptr.null] 1) = 1 ∧
    decrefCount (walkOps [Ptr.null, Ptr.null] 1) = 1 - 1 :=
  (walk_accounting [Ptr.null, Ptr.null]).2.2.2 1 (by decide) (by decide)

/-- C6 (confirmed): in any connect cycle, every synthetic on_add produced by
the load step comes before every watch-driven callback in the cycle trace;
in particular a backend reporting two interfaces with one neighbor each at
connect time yields exactly two on_add calls before any watch-driven
callback. -/
theorem load_before_watch :
    (∀ (keys : List String) (conn : Conn) (lc : List Call),
      load keys conn = Except.ok lc →
      run_cycle keys conn = Except.ok (lc ++ loop_calls keys conn)) ∧
    (∀ (keys : List String) (conn : Conn) (i j m n : Record),
      Interface_iterator keys conn = [i, j] →
      interface_neighbors i = Except.ok [m] →
      interface_neighbors j = Except.ok [n] →
      run_cycle keys conn =
        Except.ok ([Call.on_add i m, Call.on_add j n] ++ loop_calls keys conn)) := by
  constructor
  · intro keys conn lc h
    rw [run_cycle, h]
    rfl
  · intro keys conn i j m n hI h1 h2
    have e1 : interface_calls i = Except.ok [Call.on_add i m] := by
      rw [interface_calls, h1]
      rfl
    have e2 : interface_calls j = Except.ok [Call.on_add j n] := by
      rw [interface_calls, h2]
      rfl
    have hload : load keys conn = Except.ok [Call.on_add i m, Call.on_add j n] := by
      rw [load, hI]
      simp only [load_go, e1, e2, bind_ok_eq]
      rfl
    rw [run_cycle, hload]
    rfl

/-- C6 witness: on the concrete demo connection, two interfaces with one
neighbor each, the cycle trace opens with exactly the two synthetic on_add
calls and only then the watch-driven calls. -/
theorem load_before_watch_witness :
    run_cycle demoKeys demoConn =
      Except.ok
        ([Call.on_add (Interface_init demoKeys demoItf) (Port_init demoKeys demoNeighbor),
          Call.on_add (Interface_init demoKeys demoItf) (Port_init demoKeys demoNeighbor)] ++
          loop_calls demoKeys demoConn) :=
  load_before_watch.2 demoKeys demoConn
    (Interface_init demoKeys demoItf) (Interface_init demoKeys demoItf)
    (Port_init demoKeys demoNeighbor) (Port_init demoKeys demoNeighbor)
    rfl rfl rfl

/-- C7 (confirmed): for a key outside the class sub-type mapping, the decoded
record carries the field exactly when the backend string fetch is non-null,
bound to the returned text (uniquely so, when the stripped key names are
distinct, as the introspected enum constant names are); a null fetch leaves no
attribute under that name at all; and the record has exactly one field per
key whose decode produced a value. -/
theorem scalar_field_decode (subs : List (String × (Ptr → Record)))
    (keys : List String) (p : Ptr) (k : String)
    (hk : k ∈ keys) (hsub : subs.lookup k = none)
    (hnd : (keys.map stripKey).Nodup) :
    (∀ s, lldpctl_atom_get_str p k = some s →
      ((stripKey k, UVal.str s) ∈ Atom_init_with subs keys p ∧
       ∀ v, (stripKey k, v) ∈ Atom_init_with subs keys p → v = UVal.str s)) ∧
    (lldpctl_atom_get_str p k = none →
      ∀ v, (stripKey k, v) ∉ Atom_init_with subs keys p) ∧
    (Atom_init_with subs keys p).length =
      (keys.filter fun k2 => (decodeOne subs p k2).isSome).length := by
  have hdec : decodeOne subs p k = (lldpctl_atom_get_str p k).map UVal.str := by
    simp only [decodeOne, hsub]
    rfl
  have hid : ∀ v, (stripKey k, v) ∈ Atom_init_with subs keys p →
      decodeOne subs p k = some v := by
    intro v hv
    rw [Atom_init_with] at hv
    obtain ⟨a, ha, hfa⟩ := List.mem_filterMap.mp hv
    obtain ⟨w, hw, hpair⟩ := Option.map_eq_some'.mp hfa
    injection hpair with hsk hvw
    have hak : a = k := List.inj_on_of_nodup_map hnd ha hk hsk
    subst hak
    rw [hw, hvw]
  refine ⟨?_, ?_, ?_⟩
  · intro s hs
    constructor
    · rw [Atom_init_with]
      apply List.mem_filterMap.mpr
      refine ⟨k, hk, ?_⟩
      rw [hdec, hs]
      rfl
    · intro v hv
      have hsome := hid v hv
      rw [hdec, hs] at hsome
      simp only [Option.map_some'] at hsome
      exact (Option.some.injEq _ _ ▸ hsome).symm
  · intro hnull v hv
    have hsome := hid v hv
    rw [hdec, hnull] at hsome
    simp at hsome
  · rw [Atom_init_with, length_filterMap_eq]
    apply congrArg List.length
    apply List.filter_congr
    intro a _
    cases decodeOne subs p a <;> rfl

/-- C7 witness: with the one-key table lldpctl_k_chassis_name and a handle
whose backend string for that key is sw1, the decoded record carries the
field chassis_name = sw1. -/
theorem scalar_field_decode_witness :
    (stripKey "lldpctl_k_chassis_name", UVal.str "sw1") ∈
      Atom_init_with [] ["lldpctl_k_chassis_name"]
        (Ptr.node [("lldpctl_k_chassis_name", "sw1")] [] [] Ptr.null) :=
  ((scalar_field_decode [] ["lldpctl_k_chassis_name"]
      (Ptr.node [("lldpctl_k_chassis_name", "sw1")] [] [] Ptr.null)
      "lldpctl_k_chassis_name" (by decide) rfl (by decide)).1 "sw1" rfl).1

/-- C8 (confirmed): a delivered notification with change tag added invokes
exactly on_add on the decoded records, deleted exactly on_delete, updated
exactly on_update, and no notification ever invokes more than one override. -/
theorem change_event_routing (keys : List String) (e : ChangeEvent) :
    (e.cbtype = lldpctl_c_added →
      process keys e =
        [Call.on_add (Atom_init keys e.localPtr) (Port_init keys e.remotePtr)]) ∧
    (e.cbtype = lldpctl_c_deleted →
      process keys e =
        [Call.on_delete (Atom_init keys e.localPtr) (Port_init keys e.remotePtr)]) ∧
    (e.cbtype = lldpctl_c_updated →
      process keys e =
        [Call.on_update (Atom_init keys e.localPtr) (Port_init keys e.remotePtr)]) ∧
    (process keys e).length ≤ 1 := by
  refine ⟨?_, ?_, ?_, ?_⟩
  · intro h
    simp [process, h, lldpctl_c_added, lldpctl_c_deleted, lldpctl_c_updated]
  · intro h
    simp [process, h, lldpctl_c_added, lldpctl_c_deleted, lldpctl_c_updated]
  · intro h
    simp [process, h, lldpctl_c_added, lldpctl_c_deleted, lldpctl_c_updated]
  · by_cases h1 : e.cbtype = lldpctl_c_added
    · simp [process, h1, lldpctl_c_added, lldpctl_c_deleted, lldpctl_c_updated]
    · by_cases h2 : e.cbtype = lldpctl_c_deleted
      · simp [process, h1, h2, lldpctl_c_added, lldpctl_c_deleted, lldpctl_c_updated]
      · by_cases h3 : e.cbtype = lldpctl_c_updated
        · simp [process, h1, h2, h3, lldpctl_c_added, lldpctl_c_deleted,
            lldpctl_c_updated]
        · simp [process, h1, h2, h3]

/-- C8 witness: a concrete added notification invokes exactly on_add on the
decoded local and remote records. -/
theorem change_event_routing_witness :
    process [] { cbtype := 2, localPtr := Ptr.null, remotePtr := Ptr.null } =
      [Call.on_add (Atom_init [] Ptr.null) (Port_init [] Ptr.null)] :=
  (change_event_routing []
    { cbtype := 2, localPtr := Ptr.null, remotePtr := Ptr.null }).1 rfl

/-- C9 (confirmed): a key in the class sub-type mapping is always decoded and
assigned, as a possibly empty record list, a NULL list handle yielding the
empty list rather than omission; and every decoded Interface record carries a
port attribute holding the Ports record of its port atom. -/
theorem list_fields_always_present :
    (∀ (subs : List (String × (Ptr → Record))) (keys : List String) (p : Ptr)
      (k : String) (dec : Ptr → Record),
      k ∈ keys → subs.lookup k = some dec →
      ∃ l, (stripKey k, UVal.lst l) ∈ Atom_init_with subs keys p ∧
        (lldpctl_atom_get p k = Ptr.null → l = [])) ∧
    (∀ (keys : List String) (p : Ptr),
      ("port", UVal.obj (Ports_init keys (lldpctl_get_port p))) ∈
        Interface_init keys p) := by
  constructor
  · intro subs keys p k dec hk hsub
    have hdec : decodeOne subs p k = _decode_as_atom dec k p := by
      simp only [decodeOne, hsub]
    cases hg : lldpctl_atom_get p k with
    | null =>
      refine ⟨[], ?_, fun _ => rfl⟩
      rw [Atom_init_with]
      apply List.mem_filterMap.mpr
      refine ⟨k, hk, ?_⟩
      rw [hdec, _decode_as_atom, hg]
      rfl
    | node strs2 subs2 elems2 port2 =>
      refine ⟨elems2.map dec, ?_, ?_⟩
      · rw [Atom_init_with]
        apply List.mem_filterMap.mpr
        refine ⟨k, hk, ?_⟩
        rw [hdec, _decode_as_atom, hg]
        rfl
      · intro hnull
        exact absurd hnull (fun h => Ptr.noConfusion h)
  · intro keys p
    rw [Interface_init]
    exact List.mem_append_right _ (List.mem_singleton.mpr rfl)

/-- C9 witness: decoding a NULL handle with the Ports key table assigns the
port_neighbors attribute to the empty list rather than omitting it. -/
theorem list_fields_always_present_witness :
    (stripKey "lldpctl_k_port_neighbors", UVal.lst []) ∈
      Atom_init_with [("lldpctl_k_port_neighbors", Port_init [])]
        ["lldpctl_k_port_neighbors"] Ptr.null := by
  obtain ⟨l, hm, hl⟩ :=
    list_fields_always_present.1 [("lldpctl_k_port_neighbors", Port_init [])]
      ["lldpctl_k_port_neighbors"] Ptr.null "lldpctl_k_port_neighbors"
      (Port_init []) (by decide) rfl
  rw [hl rfl] at hm
  exact hm

/-- C10 (confirmed): a delivered notification whose change tag is none of
added, deleted, updated invokes no override at all: the dispatch decodes the
two handles, matches no branch and returns normally, silently dropping the
event. -/
theorem unknown_cbtype_dropped (keys : List String) (e : ChangeEvent)
    (h1 : e.cbtype ≠ lldpctl_c_added) (h2 : e.cbtype ≠ lldpctl_c_deleted)
    (h3 : e.cbtype ≠ lldpctl_c_updated) :
    process keys e = [] := by
  simp [process, h1, h2, h3]

/-- C10 witness: a concrete notification with the unknown change tag 7
invokes no override. -/
theorem unknown_cbtype_dropped_witness :
    process [] { cbtype := 7, localPtr := Ptr.null, remotePtr := Ptr.null } = [] :=
  unknown_cbtype_dropped []
    { cbtype := 7, localPtr := Ptr.null, remotePtr := Ptr.null }
    (by decide) (by decide) (by decide)

end Lldpy
